import Mathlib

/-!
Shallow embedding of the `enhanced_clean` data-cleaning pipeline from
`clean_data.py` of the German_Demographics_Clustering repository, together
with proofs of the behavioural properties stated in its specification.

Modelling conventions:
* A table cell is an element of `Cell`: an integer code, a decimal value
  (modelled exactly as a rational, since the decimals that occur are short
  literals), a string, or the missing marker `np.nan`.
* A row of a pandas DataFrame is an association list from column names to
  cells; a DataFrame is a list of rows.
* Fallible Python code (an uncaught `ValueError`, e.g. from `float(...)` or
  `astype(int)`) is modelled with `Option`: `none` is a raised exception.
-/

/-- A value held in one cell of the demographics table: an integer code, a
decimal value, a string, or the missing marker (`np.nan`). -/
inductive Cell where
  | int (n : Int)
  | dec (q : Rat)
  | str (s : String)
  | missing
deriving DecidableEq, Repr

/-- A row of the table: an association list from column name to cell, in
column order. -/
abbrev Row := List (String × Cell)

/-- A table (pandas DataFrame): a list of rows. -/
abbrev Table := List Row

/-- First-match lookup in an association list (dict / Series-index lookup). -/
def lookupKey {β : Type} (k : String) : List (String × β) → Option β
  | [] => none
  | (a, b) :: t => if a = k then some b else lookupKey k t

/-- Read a column's cell from a row; an absent column reads as missing
(pipeline precondition: referenced columns are present). -/
def getCol (r : Row) (name : String) : Cell :=
  (lookupKey name r).getD Cell.missing

/-- Column assignment `df[name] = value` for one row: overwrite the entries
with that name if the column exists, otherwise append it at the end, as
pandas does for a new column. -/
def setCol (r : Row) (name : String) (c : Cell) : Row :=
  if r.any (fun p => p.1 = name) then
    r.map (fun p => (p.1, if p.1 = name then c else p.2))
  else r ++ [(name, c)]

/-- The cells of one named column, top to bottom (`df[name]`). -/
def columnOf (df : Table) (name : String) : List Cell :=
  df.map (fun r => getCol r name)

/-- Number of missing cells in a row: `df.isnull().sum(axis=1)` for that
row, counted across all of its columns. -/
def countMissingRow (r : Row) : Nat :=
  r.countP (fun p => p.2 = Cell.missing)

/-- `clean_data.py` line 136: keep exactly the rows whose missing-cell count
is at most `missing_breakpoint`
(`df.loc[df.isnull().sum(axis=1) <= missing_breakpoint, :]`). -/
def rowFilter (df : Table) (missing_breakpoint : Int) : Table :=
  df.filter (fun r => (countMissingRow r : Int) ≤ missing_breakpoint)

/-- Python `s[1:-1]`: drop the first and the last character (the enclosing
brackets of a raw missing-code string); strings of length at most one
become empty, as in Python. -/
def stripOuter (s : String) : String :=
  ((s.toList.drop 1).dropLast).asString

/-- Helper for `splitOnComma`: splits a character list at every comma,
accumulating the current token reversed. -/
def splitOnCommaAux : List Char → List Char → List String
  | [], acc => [acc.reverse.asString]
  | c :: t, acc =>
    if c = ',' then acc.reverse.asString :: splitOnCommaAux t []
    else splitOnCommaAux t (c :: acc)

/-- Python `s.split(',')`: split on every comma; the empty string yields the
one-element list containing the empty token, exactly as in Python. -/
def splitOnComma (s : String) : List String :=
  splitOnCommaAux s.toList []

/-- `clean_data.py` lines 37-38: tokenize one raw `missing_or_unknown`
string — strip the enclosing brackets, then split on commas. -/
def splitTokens (s : String) : List String :=
  splitOnComma (stripOuter s)

/-- Numeric value of a list of ASCII digits. -/
def digitsToNat (l : List Char) : Nat :=
  l.foldl (fun a c => a * 10 + (c.toNat - 48)) 0

/-- Model of Python `int(str)` on the code tokens of this dataset: an
optional sign followed by one or more ASCII digits; anything else raises
`ValueError`, modelled as `none`. -/
def pyParseInt (s : String) : Option Int :=
  match s.toList with
  | [] => none
  | c :: cs =>
    let neg := c = '-'
    let ds := if c = '-' ∨ c = '+' then cs else c :: cs
    if ds ≠ [] ∧ ds.all (fun d => d.isDigit) then
      some (if neg then -(digitsToNat ds : Int) else (digitsToNat ds : Int))
    else none

/-- Model of Python `float(str)` on the code tokens of this dataset: an
optional sign, then digits with an optional fractional part after a
decimal point, at least one digit overall; anything else (such as a
letter) raises `ValueError`, modelled as `none`. -/
def pyParseFloat (s : String) : Option Rat :=
  match s.toList with
  | [] => none
  | c :: cs =>
    let neg := c = '-'
    let ds := if c = '-' ∨ c = '+' then cs else c :: cs
    let ip := ds.takeWhile (fun d => d.isDigit)
    let rest := ds.dropWhile (fun d => d.isDigit)
    match rest with
    | [] =>
      if ip = [] then none
      else
        let v : Rat := ((digitsToNat ip : Int) : Rat)
        some (if neg then -v else v)
    | '.' :: fp =>
      if fp.all (fun d => d.isDigit) ∧ (ip ≠ [] ∨ fp ≠ []) then
        let v : Rat := ((digitsToNat ip : Int) : Rat) +
          ((digitsToNat fp : Int) : Rat) / ((10 : Rat) ^ fp.length)
        some (if neg then -v else v)
      else none
    | _ => none

/-- Result of `parse_missing_codes`: either `np.nan` (no codes to replace)
or the typecast list of codes. -/
inductive ParsedCodes where
  | noop
  | codes (cs : List Cell)
deriving DecidableEq, Repr

/-- `clean_data.py` lines 71-100, `parse_missing_codes`: if the token list
contains an empty string, return `np.nan`; otherwise try to cast every
token with `int`; if any token fails, instead cast each token with
`float`, except that a token containing the character `X` is kept as a
literal string.  A token without an `X` that also fails `float` raises an
uncaught `ValueError`, modelled as `none`. -/
def parse_missing_codes (code_list : List String) : Option ParsedCodes :=
  if "" ∉ code_list then
    match code_list.mapM pyParseInt with
    | some ns => some (ParsedCodes.codes (ns.map Cell.int))
    | none =>
      (code_list.mapM (fun e =>
        if ('X' : Char) ∈ e.toList then some (Cell.str e)
        else (pyParseFloat e).map Cell.dec)).map ParsedCodes.codes
  else some ParsedCodes.noop

/-- Tokenize-then-parse of one raw bracketed missing-code string, i.e. the
composition of lines 37-38 with `parse_missing_codes`. -/
def parse_raw (s : String) : Option ParsedCodes :=
  parse_missing_codes (splitTokens s)

/-- Equality test used by `DataFrame.replace` when matching a cell against
a sentinel code: numeric values compare across int/decimal (as in numpy,
`5 == 5.0`), strings compare as strings, and the missing marker never
equals any code. -/
def cellEqNum (a b : Cell) : Bool :=
  match a, b with
  | Cell.int n, Cell.int m => n = m
  | Cell.int n, Cell.dec q => ((n : Rat) = q)
  | Cell.dec q, Cell.int n => (q = (n : Rat))
  | Cell.dec p, Cell.dec q => p = q
  | Cell.str s, Cell.str t => s = t
  | _, _ => false

/-- One cell of `data.replace(to_replace=code_map, value=np.nan)`: if the
cell's column has a parsed code list, a cell equal to one of the codes
becomes missing; a column mapped to `np.nan` (the no-op marker) and a
column not in the map are untouched. -/
def replaceCell (codeFor : List (String × ParsedCodes)) (name : String)
    (c : Cell) : Cell :=
  match lookupKey name codeFor with
  | some (ParsedCodes.codes cs) =>
    if cs.any (fun k => cellEqNum c k) then Cell.missing else c
  | some ParsedCodes.noop => c
  | none => c

/-- `clean_data.py` line 111: the whole-table sentinel replacement. -/
def applyCodeMap (df : Table) (codeFor : List (String × ParsedCodes)) :
    Table :=
  df.map (fun r => r.map (fun p => (p.1, replaceCell codeFor p.1 p.2)))

/-- `clean_data.py` lines 42-115, `fill_missing` (with `inplace=False`,
so the inputs are deep-copied and never mutated): parse every column's
token list with `parse_missing_codes` (an exception anywhere aborts, hence
`Option`), build the column-to-codes map, and replace sentinel cells with
the missing marker. -/
def fill_missing (df : Table)
    (missing_codes_mapping : List (String × List String)) : Option Table :=
  (missing_codes_mapping.mapM
      (fun p => (parse_missing_codes p.2).map (fun pc => (p.1, pc)))).map
    (fun codeFor => applyCodeMap df codeFor)

/-- `clean_data.py` lines 37-38: the in-place tokenization of the
`feature_summary` argument — each raw bracketed string of the
`missing_or_unknown` column is replaced by its comma-split token list. -/
def tokenize_summary (fs : List (String × String)) :
    List (String × List String) :=
  fs.map (fun p => (p.1, splitTokens p.2))

/-- One cell of `Series.map(mapping_dict, na_action='ignore')` for an
integer-keyed dict: the missing marker is passed through; an integer key
(or an integral decimal, which hashes like the integer in Python) is
looked up in the dict, an absent key yielding the missing marker; any
other value is likewise absent from the dict and yields missing. -/
def mapCell (mapping : List (Int × Cell)) (c : Cell) : Cell :=
  match c with
  | Cell.missing => Cell.missing
  | Cell.int n => (mapping.lookup n).getD Cell.missing
  | Cell.dec q =>
    if q.den = 1 then (mapping.lookup q.num).getD Cell.missing
    else Cell.missing
  | Cell.str _ => Cell.missing

/-- `clean_data.py` lines 163-191, `data_mapper`: re-encode a series
through a lookup dict with `na_action='ignore'` (the printed null-count
diagnostics have no effect on the result and are not modelled). -/
def data_mapper (series : List Cell) (mapping : List (Int × Cell)) :
    List Cell :=
  series.map (mapCell mapping)

/-- `clean_data.py` lines 195-211, `decade_code_map`. -/
def decade_code_map : List (Int × Cell) :=
  [(1, Cell.int 0), (2, Cell.int 0), (3, Cell.int 1), (4, Cell.int 1),
   (5, Cell.int 2), (6, Cell.int 2), (7, Cell.int 2), (8, Cell.int 3),
   (9, Cell.int 3), (10, Cell.int 4), (11, Cell.int 4), (12, Cell.int 4),
   (13, Cell.int 4), (14, Cell.int 5), (15, Cell.int 5)]

/-- `clean_data.py` lines 218-234, `movement_code_map`. -/
def movement_code_map : List (Int × Cell) :=
  [(1, Cell.int 0), (2, Cell.int 1), (3, Cell.int 0), (4, Cell.int 1),
   (5, Cell.int 0), (6, Cell.int 1), (7, Cell.int 1), (8, Cell.int 0),
   (9, Cell.int 1), (10, Cell.int 0), (11, Cell.int 1), (12, Cell.int 0),
   (13, Cell.int 1), (14, Cell.int 0), (15, Cell.int 1)]

/-- `clean_data.py` lines 275-284, `rural_code_map` (code 0 maps to
`np.nan`). -/
def rural_code_map : List (Int × Cell) :=
  [(0, Cell.missing), (1, Cell.int 0), (2, Cell.int 0), (3, Cell.int 0),
   (4, Cell.int 0), (5, Cell.int 0), (7, Cell.int 1), (8, Cell.int 2)]

/-- `clean_data.py` lines 299-308, `neighborhood_code_map`. -/
def neighborhood_code_map : List (Int × Cell) :=
  [(0, Cell.int 0), (1, Cell.int 1), (2, Cell.int 2), (3, Cell.int 3),
   (4, Cell.int 4), (5, Cell.int 5), (7, Cell.int 0), (8, Cell.int 0)]

/-- `clean_data.py` lines 315-321, `biz_code_map`. -/
def biz_code_map : List (Int × Cell) :=
  [(1, Cell.int 0), (2, Cell.int 0), (3, Cell.int 0), (4, Cell.int 0),
   (5, Cell.int 1)]

/-- `clean_data.py` lines 370-375, `age_bin_to_year`: representative birth
year for each age bracket code (reference year 2017; bracket 1 is
"under 30"). -/
def age_bin_to_year : List (Int × Cell) :=
  [(1, Cell.int 2002), (2, Cell.int 1979), (3, Cell.int 1963),
   (4, Cell.int 1937)]

/-- Distinct non-missing values of a column in order of first occurrence:
the observed levels of a categorical column in `pd.get_dummies`.  (pandas
sorts the levels; which deterministic order is used only changes which
level is "first", and the properties proved below are stated relative to
the first level of this order.) -/
def observedLevels (col : List Cell) : List Cell :=
  go (col.filter (fun c => c ≠ Cell.missing)) []
where
  /-- Deduplicate, keeping first occurrences; `seen` are values already
  emitted. -/
  go : List Cell → List Cell → List Cell
  | [], _ => []
  | c :: t, seen => if c ∈ seen then go t seen else c :: go t (c :: seen)

/-- String rendering of a cell value inside a dummy-column name. -/
def showCell : Cell → String
  | Cell.int n => toString n
  | Cell.dec q => toString q
  | Cell.str s => s
  | Cell.missing => "nan"

/-- Names of the dummy columns produced for one categorical column by
`pd.get_dummies(..., prefix_sep='__', drop_first=True, dummy_na=True)`:
one `{column}__{value}` column per observed level except the first
(dropped reference) level, plus the `{column}__nan` missing-indicator
column, always last. -/
def dummyColNames (name : String) (col : List Cell) : List String :=
  ((observedLevels col).drop 1).map (fun v => name ++ "__" ++ showCell v)
    ++ [name ++ "__nan"]

/-- The 0/1 dummy vector of one cell over the given level list: one
indicator per kept (non-reference) level, then the missing indicator. -/
def dummyVec (levels : List Cell) (c : Cell) : List Nat :=
  (levels.drop 1).map (fun v => if c = v then 1 else 0)
    ++ [if c = Cell.missing then 1 else 0]

/-- The dummy columns (name and 0/1 cell) replacing one categorical cell. -/
def dummiesForCell (name : String) (levels : List Cell) (c : Cell) :
    List (String × Cell) :=
  ((levels.drop 1).map
      (fun v => (name ++ "__" ++ showCell v,
        Cell.int (if c = v then 1 else 0))))
    ++ [(name ++ "__nan", Cell.int (if c = Cell.missing then 1 else 0))]

/-- `pd.get_dummies(df, prefix_sep='__', drop_first=True, dummy_na=True,
columns=cat_cols)`: for each listed categorical column, compute its
observed levels from the whole table, remove the column from every row and
append the dummy columns. -/
def get_dummies (df : Table) (cat_cols : List String) : Table :=
  cat_cols.foldl
    (fun d name =>
      let levels := observedLevels (columnOf d name)
      d.map (fun r =>
        (r.filter (fun p => p.1 ≠ name))
          ++ dummiesForCell name levels (getCol r name)))
    df

/-- Truncation toward zero of a rational, as Python `int(...)` /
`.astype(int)` truncates a float. -/
def truncRat (q : Rat) : Int :=
  if q < 0 then q.ceil else q.floor

/-- `.astype(int)` on one cell: an integer stays itself, a decimal is
truncated toward zero, anything else (string or missing) raises, modelled
as `none`. -/
def castInt : Cell → Option Int
  | Cell.int n => some n
  | Cell.dec q => some (truncRat q)
  | _ => none

/-- `clean_data.py` lines 253-255: the wealth code, `(code / 10)` in float
division followed by `.astype(int)` truncation — truncated division by 10
(exact at this scale, so the float detour loses nothing). -/
def wealthOf (c : Int) : Int :=
  Int.tdiv c 10

/-- `clean_data.py` lines 258-259: the life-stage code, `code % 10` with
Python `%` semantics (result sign follows the positive divisor). -/
def stageOf (c : Int) : Int :=
  c % 10

/-- Column names of the life-stage digit split (`Int'l` spelled with an
escaped apostrophe). -/
def lifeStageSrc : String := "RR4: Life Stage Type - Int\x27l Code Mapping"

/-- Derived wealth column name. -/
def wealthName : String := "RR4: Life Stage Type - Int\x27l - Wealth"

/-- Derived stage column name. -/
def stageName : String := "RR4: Life Stage Type - Int\x27l - Stage"

/-- `clean_data.py` lines 244-263: drop the rows whose life-stage source
column is missing (`dropna(subset=...)`), cast the survivors' codes to
integers (`astype(int)`, which raises on a non-numeric cell, hence
`Option`), add the wealth (tens digit) and stage (ones digit) columns, and
drop the source column. -/
def lifeStageStage (df : Table) : Option Table :=
  (df.filter (fun r => getCol r lifeStageSrc ≠ Cell.missing)).mapM
    (fun r =>
      (castInt (getCol r lifeStageSrc)).map (fun c =>
        (setCol (setCol r wealthName (Cell.int (wealthOf c)))
            stageName (Cell.int (stageOf c))).filter
          (fun p => p.1 ≠ lifeStageSrc)))

/-- `df[tgt] = data_mapper(df[src], mapping)`: add (or overwrite) a column
with the mapped values of a source column. -/
def addMappedCol (df : Table) (src tgt : String)
    (mapping : List (Int × Cell)) : Table :=
  df.map (fun r => setCol r tgt (mapCell mapping (getCol r src)))

/-- In-place re-scoring `df[name] = data_mapper(df[name], mapping)`. -/
def remapColumn (df : Table) (name : String)
    (mapping : List (Int × Cell)) : Table :=
  df.map (fun r => setCol r name (mapCell mapping (getCol r name)))

/-- `df.drop(columns=cols)`: remove the named columns from every row
(precondition of the pipeline: the columns exist). -/
def dropColumns (df : Table) (cols : List String) : Table :=
  df.map (fun r => r.filter (fun p => p.1 ∉ cols))

/-- `df.rename(columns=m)`: rename by lookup, unmapped names unchanged. -/
def renameColumns (df : Table) (m : List (String × String)) : Table :=
  df.map (fun r => r.map (fun p => ((lookupKey p.1 m).getD p.1, p.2)))

/-- `clean_data.py` lines 124-125: the five outlier columns dropped. -/
def outlier_cols : List String :=
  ["ALTER_HH", "KBA05_BAUMAX", "KK_KUNDENTYP", "AGER_TYP", "TITEL_KZ"]

/-- `clean_data.py` lines 143-151: the 16 nominal columns of the first
one-hot encoding pass. -/
def cat_cols_1 : List String :=
  ["Bldg: Location Relative to E or W Germany",
   "Small or Home Office Owner", "Insurance Type",
   "Nationality Based on Name", "Shopper Type",
   "Socioeconomic Status - LowRes", "Family Type - LowRes",
   "MoneyType__Primary", "Energy Consumption Type",
   "Consumption Channel Type", "Bldg: Building Type",
   "RR4: Life Stage Type - LowRes", "Socioeconomic Status - HighRes",
   "Family Type - HighRes", "Vacation Habits",
   "RR4: Life Stage Type - HighRes"]

/-- `clean_data.py` lines 266-267: the second one-hot encoding pass. -/
def cat_cols_2 : List String :=
  ["Life Stage - HighRes", "Life Stage - LowRes"]

/-- Neighborhood-quality column name. -/
def nqName : String := "Bldg: Neighborhood Quality"

/-- Derived rural-type column name. -/
def ruralName : String := "Bldg: Rural Type"

/-- `clean_data.py` lines 336-354: the 19 low-missingness columns whose
missing rows are dropped outright. -/
def low_missing_cols : List String :=
  ["Bldg: Number of HHs",
   "PLZ8: Primarily Business Bldgs",
   "PLZ8: Bins of 1-2 Family Homes",
   "PLZ8: Bins of 6-10 Family Homes",
   "PLZ8: Bins of 10+ Family Homes",
   "PLZ8: Bin Counts of HHs",
   "PLZ8: Bin Counts of Bldgs",
   "PLZ8: Bins of 3-5 Family Homes",
   "Community: Share of Unemployment",
   "Community: Share of Unemployment Relative to Parent County",
   "Community: Size (bins)",
   "Bldg: Number of Academic Title Holders",
   "PLZ8: Number of Cars",
   "Age Bin",
   "PostCode: Distance to City Center (bins)",
   "PostCode: Density of HHs per km^2 (bins)",
   "PostCode: Distance to Nearest Urban Center (bins)",
   "Bldg: Distance to Point of Sale Category",
   "RR1: Residential-Commercial Activity Ratio (categories)"]

/-- `clean_data.py` line 356: `df.dropna(subset=low_missing_cols)` — keep
the rows with no missing value in any of the 19 columns. -/
def dropLowMissing (df : Table) : Table :=
  df.filter (fun r =>
    low_missing_cols.all (fun c => getCol r c ≠ Cell.missing))

/-- `clean_data.py` lines 377-382: fill a missing Birth Year cell with the
representative year looked up (`Series.map`) from the row's own Age Bin
value; a present Birth Year, and every other column, is untouched
(`fillna` only replaces missing entries). -/
def birthYearFill (r : Row) : Row :=
  match getCol r "Birth Year" with
  | Cell.missing =>
    setCol r "Birth Year" (mapCell age_bin_to_year (getCol r "Age Bin"))
  | _ => r

/-- `clean_data.py` lines 386-397: the 12 higher-missingness columns that
receive the trained median. -/
def median_cols : List String :=
  ["RR1: Neighborhood Type",
   "RR1: Purchasing Power (bins)",
   "HH: Probability of Children in Residence",
   "Health Type",
   "RR3: Bins of 1-2 Family Homes",
   "RR3: Bins of 3-5 Family Homes",
   "RR3: Bins of 6-10 Family Homes",
   "RR3: Bins of 10+ Family Homes",
   "RR3: Bin Counts of Bldgs",
   "RR1: Movement Patterns",
   "Generation Movement",
   "Generation Decade"]

/-- `clean_data.py` line 399, `median_imputer.transform`: replace each
missing cell of the listed columns with that column's stored median (the
imputer's fitted state, an external collaborator, is passed in as the
per-column median table). -/
def imputeMedians (df : Table) (medians : List (String × Cell))
    (cols : List String) : Table :=
  df.map (fun r =>
    cols.foldl
      (fun row c =>
        if getCol row c = Cell.missing then
          setCol row c ((lookupKey c medians).getD Cell.missing)
        else row)
      r)

/-- Final state of a call to `enhanced_clean`: the returned table (or a
raised exception as `none`), plus the final values of the two table
arguments, making the function's frame effects explicit. -/
structure CleanResult where
  output : Option Table
  df_final : Table
  feature_summary_final : List (String × List String)
deriving Repr

/-- `clean_data.py` lines 6-404, `enhanced_clean`, as explicit state
passing.  Line 37 assigns through `feature_summary.loc`, mutating the
caller's `feature_summary` into its tokenized form before `fill_missing`
deep-copies it; every subsequent operation either rebinds the local name
`df` or mutates (`inplace=True`) the deep copy made inside `fill_missing`,
so the caller's `df` is never written.  The column-rename map (read from
`col_renaming.csv`, an external data file) and the fitted medians of the
`median_imputer` collaborator are passed in as parameters. -/
def enhanced_clean (df : Table) (feature_summary : List (String × String))
    (missing_breakpoint : Int) (new_names : List (String × String))
    (medians : List (String × Cell)) : CleanResult :=
  let fs := tokenize_summary feature_summary
  let out :=
    (fill_missing df fs).bind (fun d0 =>
      let d1 := dropColumns d0 outlier_cols
      let d2 := renameColumns d1 new_names
      let d3 := rowFilter d2 missing_breakpoint
      let d4 := get_dummies d3 cat_cols_1
      let d5 := addMappedCol d4 "Generation Designation"
        "Generation Decade" decade_code_map
      let d6 := addMappedCol d5 "Generation Designation"
        "Generation Movement" movement_code_map
      let d7 := dropColumns d6 ["Generation Designation"]
      (lifeStageStage d7).map (fun d8 =>
        let d9 := get_dummies d8 cat_cols_2
        let d10 := addMappedCol d9 nqName ruralName rural_code_map
        let d11 := get_dummies d10 [ruralName]
        let d12 := remapColumn d11 nqName neighborhood_code_map
        let d13 := addMappedCol d12 "PLZ8: Most Common Bldg Type"
          "PLZ8: Primarily Business Bldgs" biz_code_map
        let d14 := dropColumns d13 ["PLZ8: Most Common Bldg Type"]
        let d15 := dropLowMissing d14
        let d16 := d15.map birthYearFill
        imputeMedians d16 medians median_cols))
  { output := out, df_final := df, feature_summary_final := fs }

/-- Relation between one raw token and its parsed cell in the fallback
(`except ValueError`) branch of `parse_missing_codes`: a token containing
`X` is kept as a string, any other token is parsed as a decimal. -/
def tokenRel (e : String) (c : Cell) : Prop :=
  (('X' : Char) ∈ e.toList ∧ c = Cell.str e) ∨
  (('X' : Char) ∉ e.toList ∧ ∃ q, pyParseFloat e = some q ∧ c = Cell.dec q)

theorem lookupKey_append {β : Type} (k : String)
    (l₁ l₂ : List (String × β)) :
    lookupKey k (l₁ ++ l₂) =
      match lookupKey k l₁ with
      | some b => some b
      | none => lookupKey k l₂ := by
  induction l₁ with
  | nil => simp [lookupKey]
  | cons p t ih =>
    obtain ⟨a, b⟩ := p
    by_cases h : a = k <;> simp [lookupKey, h, ih]

theorem lookupKey_eq_none {β : Type} (k : String)
    (l : List (String × β)) (h : ∀ p ∈ l, p.1 ≠ k) :
    lookupKey k l = none := by
  induction l with
  | nil => rfl
  | cons p t ih =>
    obtain ⟨a, b⟩ := p
    have ha : a ≠ k := h (a, b) (by simp)
    simp only [lookupKey, if_neg ha]
    exact ih (fun q hq => h q (by simp [hq]))

theorem lookupKey_of_any_false {β : Type} (k : String)
    (l : List (String × β)) (h : l.any (fun p => p.1 = k) = false) :
    lookupKey k l = none := by
  refine lookupKey_eq_none k l ?_
  intro p hp
  simp only [List.any_eq_false] at h
  have := h p hp
  simpa using this

theorem lookupKey_overwrite (k : String) (c : Cell) (r : Row)
    (h : r.any (fun p => p.1 = k) = true) :
    lookupKey k (r.map (fun p => (p.1, if p.1 = k then c else p.2)))
      = some c := by
  induction r with
  | nil => simp at h
  | cons p t ih =>
    obtain ⟨a, b⟩ := p
    by_cases ha : a = k
    · simp [lookupKey, ha]
    · simp only [List.any_cons] at h
      have ht : t.any (fun p => p.1 = k) = true := by
        rcases Bool.or_eq_true_iff.mp h with h1 | h1
        · exact absurd (of_decide_eq_true h1) ha
        · exact h1
      simp [lookupKey, ha, ih ht]

theorem lookupKey_overwrite_ne (k m : String) (c : Cell) (r : Row)
    (h : m ≠ k) :
    lookupKey m (r.map (fun p => (p.1, if p.1 = k then c else p.2)))
      = lookupKey m r := by
  induction r with
  | nil => rfl
  | cons p t ih =>
    obtain ⟨a, b⟩ := p
    by_cases ham : a = m
    · have hak : a ≠ k := fun hk => h (ham ▸ hk ▸ rfl : m = k)
      simp [lookupKey, ham, hak, h, ih]
    · simp [lookupKey, ham, ih]

theorem getCol_setCol_same (r : Row) (k : String) (c : Cell) :
    getCol (setCol r k c) k = c := by
  unfold setCol getCol
  by_cases h : r.any (fun p => p.1 = k) = true
  · simp only [h, if_true, lookupKey_overwrite k c r h, Option.getD_some]
  · have hf : r.any (fun p => p.1 = k) = false :=
      Bool.eq_false_iff.mpr h
    simp only [hf, Bool.false_eq_true, if_false]
    rw [lookupKey_append, lookupKey_of_any_false k r hf]
    simp [lookupKey]

theorem getCol_setCol_ne (r : Row) (k m : String) (c : Cell)
    (h : m ≠ k) : getCol (setCol r k c) m = getCol r m := by
  unfold setCol getCol
  by_cases ha : r.any (fun p => p.1 = k) = true
  · simp only [ha, if_true, lookupKey_overwrite_ne k m c r h]
  · have hf : r.any (fun p => p.1 = k) = false :=
      Bool.eq_false_iff.mpr ha
    simp only [hf, Bool.false_eq_true, if_false]
    rw [lookupKey_append]
    have hk : lookupKey m [(k, c)] = none := by
      have hkm : k ≠ m := fun hkm => h hkm.symm
      simp [lookupKey, hkm]
    cases hm : lookupKey m r <;> simp [hm, hk]

theorem all_congr_mem {α : Type} (l : List α) (f g : α → Bool)
    (h : ∀ a ∈ l, f a = g a) : l.all f = l.all g := by
  induction l with
  | nil => rfl
  | cons a t ih =>
    have ha : f a = g a := h a (List.mem_cons_self a t)
    have ht : t.all f = t.all g :=
      ih fun x hx => h x (List.mem_cons_of_mem a hx)
    simp only [List.all_cons, ha, ht]

theorem mapM_option_some {α β : Type} (f : α → Option β) :
    ∀ (l : List α) (out : List β), l.mapM f = some out →
      List.Forall₂ (fun a b => f a = some b) l out := by
  intro l
  induction l with
  | nil =>
    intro out h
    rw [List.mapM_nil] at h
    cases h
    exact List.Forall₂.nil
  | cons a t ih =>
    intro out h
    rw [List.mapM_cons] at h
    cases hfa : f a with
    | none => rw [hfa] at h; simp at h
    | some b =>
      rw [hfa] at h
      cases hmt : t.mapM f with
      | none => rw [hmt] at h; simp at h
      | some bs =>
        rw [hmt] at h
        simp at h
        cases h
        exact List.Forall₂.cons hfa (ih bs hmt)

theorem mapM_option_none {α β : Type} (f : α → Option β) :
    ∀ l : List α, l.mapM f = none ↔ ∃ e ∈ l, f e = none := by
  intro l
  induction l with
  | nil =>
    rw [List.mapM_nil]
    simp
  | cons a t ih =>
    rw [List.mapM_cons]
    constructor
    · intro h
      cases hfa : f a with
      | none => exact ⟨a, by simp, hfa⟩
      | some b =>
        rw [hfa] at h
        cases hmt : t.mapM f with
        | none =>
          obtain ⟨e, he, hfe⟩ := ih.mp hmt
          exact ⟨e, by simp [he], hfe⟩
        | some bs => rw [hmt] at h; simp at h
    · rintro ⟨e, he, hfe⟩
      rcases List.mem_cons.mp he with rfl | he'
      · rw [hfe]
        rfl
      · have hmt : t.mapM f = none := ih.mpr ⟨e, he', hfe⟩
        rw [hmt]
        cases hfa : f a <;> rfl

theorem cellEqNum_missing (k : Cell) : cellEqNum Cell.missing k = false := by
  cases k <;> rfl

theorem replaceCell_idem (cf : List (String × ParsedCodes)) (n : String)
    (c : Cell) :
    replaceCell cf n (replaceCell cf n c) = replaceCell cf n c := by
  unfold replaceCell
  cases h : lookupKey n cf with
  | none => rfl
  | some pc =>
    cases pc with
    | noop => rfl
    | codes cs =>
      by_cases hc : cs.any (fun k => cellEqNum c k) = true
      · have hmiss : cs.any (fun k => cellEqNum Cell.missing k) = false := by
          rw [List.any_eq_false]
          intro x _
          simp [cellEqNum_missing]
        simp [hc, hmiss]
      · have hcf : cs.any (fun k => cellEqNum c k) = false :=
          Bool.eq_false_iff.mpr hc
        simp [hcf]

theorem applyCodeMap_idem (df : Table)
    (cf : List (String × ParsedCodes)) :
    applyCodeMap (applyCodeMap df cf) cf = applyCodeMap df cf := by
  unfold applyCodeMap
  rw [List.map_map]
  apply List.map_congr_left
  intro r _
  simp only [Function.comp]
  rw [List.map_map]
  apply List.map_congr_left
  intro p _
  simp [Function.comp, replaceCell_idem]

theorem observedLevels_go_mem (x : Cell) :
    ∀ (l seen : List Cell),
      x ∈ observedLevels.go l seen ↔ x ∈ l ∧ x ∉ seen := by
  intro l
  induction l with
  | nil => intro seen; simp [observedLevels.go]
  | cons c t ih =>
    intro seen
    by_cases hc : c ∈ seen
    · rw [observedLevels.go, if_pos hc, ih seen]
      constructor
      · rintro ⟨hx, hns⟩
        exact ⟨by simp [hx], hns⟩
      · rintro ⟨hx, hns⟩
        rcases List.mem_cons.mp hx with rfl | hx'
        · exact absurd hc hns
        · exact ⟨hx', hns⟩
    · rw [observedLevels.go, if_neg hc]
      rw [List.mem_cons, ih (c :: seen)]
      constructor
      · rintro (rfl | ⟨hx, hns⟩)
        · exact ⟨by simp, hc⟩
        · refine ⟨by simp [hx], fun hs => hns (by simp [hs])⟩
      · rintro ⟨hx, hns⟩
        rcases List.mem_cons.mp hx with rfl | hx'
        · exact Or.inl rfl
        · by_cases hxc : x = c
          · exact Or.inl hxc
          · exact Or.inr ⟨hx', by simp [hxc, hns]⟩

theorem observedLevels_go_nodup :
    ∀ (l seen : List Cell), (observedLevels.go l seen).Nodup := by
  intro l
  induction l with
  | nil => intro seen; simp [observedLevels.go]
  | cons c t ih =>
    intro seen
    by_cases hc : c ∈ seen
    · rw [observedLevels.go, if_pos hc]
      exact ih seen
    · rw [observedLevels.go, if_neg hc]
      refine List.nodup_cons.mpr ⟨?_, ih _⟩
      intro hmem
      exact ((observedLevels_go_mem c t (c :: seen)).mp hmem).2 (by simp)

theorem mem_observedLevels (x : Cell) (col : List Cell) :
    x ∈ observedLevels col ↔ x ∈ col ∧ x ≠ Cell.missing := by
  unfold observedLevels
  rw [observedLevels_go_mem]
  simp [List.mem_filter]

theorem nodup_observedLevels (col : List Cell) :
    (observedLevels col).Nodup :=
  observedLevels_go_nodup _ _

theorem missing_not_mem_observedLevels (col : List Cell) :
    Cell.missing ∉ observedLevels col := by
  intro h
  exact ((mem_observedLevels _ _).mp h).2 rfl

theorem sum_indicator_nodup (c : Cell) :
    ∀ l : List Cell, l.Nodup →
      ((l.map (fun v => if c = v then 1 else 0)).sum : Nat)
        = if c ∈ l then 1 else 0 := by
  intro l
  induction l with
  | nil => intro hn; simp
  | cons a t ih =>
    intro hn
    rcases List.nodup_cons.mp hn with ⟨hna, hnt⟩
    by_cases hca : c = a
    · subst hca
      simp [List.sum_cons, ih hnt, hna]
    · simp [List.sum_cons, hca, ih hnt, List.mem_cons]

theorem lookupKey_filter_ne (k : String) (r : Row) :
    lookupKey k (r.filter (fun p => p.1 ≠ k)) = none := by
  induction r with
  | nil => rfl
  | cons p t ih =>
    obtain ⟨a, b⟩ := p
    by_cases ha : a = k
    · have hd : (decide ((a, b).1 ≠ k)) = false := by simp [ha]
      rw [List.filter_cons, hd]
      simp only [Bool.false_eq_true, if_false]
      exact ih
    · have hd : (decide ((a, b).1 ≠ k)) = true := by simp [ha]
      rw [List.filter_cons, hd]
      simp only [if_true]
      simp only [lookupKey, if_neg ha]
      exact ih

theorem forall₂_mem_right {α β : Type} {R : α → β → Prop} :
    ∀ {l : List α} {out : List β}, List.Forall₂ R l out →
      ∀ b ∈ out, ∃ a ∈ l, R a b := by
  intro l out h
  induction h with
  | nil => intro b hb; cases hb
  | @cons a b t bs hR _ ih =>
    intro x hx
    rcases List.mem_cons.mp hx with rfl | hx'
    · exact ⟨a, by simp, hR⟩
    · obtain ⟨a2, ha2, hr2⟩ := ih x hx'
      exact ⟨a2, by simp [ha2], hr2⟩

theorem parse_missing_codes_int (l : List String) (ns : List Int)
    (h1 : "" ∉ l) (hm : l.mapM pyParseInt = some ns) :
    parse_missing_codes l = some (ParsedCodes.codes (ns.map Cell.int)) := by
  unfold parse_missing_codes
  rw [if_pos h1, hm]

theorem parse_missing_codes_fallback (l : List String)
    (h1 : "" ∉ l) (h2 : l.mapM pyParseInt = none) :
    parse_missing_codes l =
      (l.mapM (fun e =>
        if ('X' : Char) ∈ e.toList then some (Cell.str e)
        else (pyParseFloat e).map Cell.dec)).map ParsedCodes.codes := by
  unfold parse_missing_codes
  rw [if_pos h1, h2]

theorem parse_missing_codes_noop_iff (l : List String) :
    parse_missing_codes l = some ParsedCodes.noop ↔ "" ∈ l := by
  constructor
  · intro hp
    by_contra h
    cases hm : l.mapM pyParseInt with
    | some ns =>
      rw [parse_missing_codes_int l ns h hm] at hp
      simp at hp
    | none =>
      rw [parse_missing_codes_fallback l h hm] at hp
      rw [Option.map_eq_some'] at hp
      obtain ⟨a, _, ha⟩ := hp
      cases ha
  · intro h
    unfold parse_missing_codes
    rw [if_neg (not_not_intro h)]

/-- C1.  Row-missingness filter boundary: under `enhanced_clean`, for every
table and integer `missing_breakpoint`, a row is retained exactly when its
missing-cell count over all columns is `≤ missing_breakpoint`; a row with
exactly `missing_breakpoint` missing cells is retained, and one with
`missing_breakpoint + 1` is dropped. -/
theorem claim_C1 (df : Table) (bp : Int) (r : Row) :
    (r ∈ rowFilter df bp ↔ r ∈ df ∧ (countMissingRow r : Int) ≤ bp)
  ∧ (r ∈ df → (countMissingRow r : Int) = bp → r ∈ rowFilter df bp)
  ∧ ((countMissingRow r : Int) = bp + 1 → r ∉ rowFilter df bp) := by
  refine ⟨?_, ?_, ?_⟩
  · rw [rowFilter, List.mem_filter]
    simp
  · intro hmem heq
    rw [rowFilter, List.mem_filter]
    exact ⟨hmem, by simp [heq]⟩
  · intro heq hmem
    rw [rowFilter, List.mem_filter] at hmem
    have h2 := hmem.2
    simp only [decide_eq_true_eq] at h2
    omega

/-- C1 witness: with `missing_breakpoint = 1`, a one-column row whose
single cell is missing (count exactly 1) is retained. -/
theorem claim_C1_witness :
    [("a", Cell.missing)] ∈ rowFilter [[("a", Cell.missing)]] 1 :=
  (claim_C1 [[("a", Cell.missing)]] 1 [("a", Cell.missing)]).2.1
    (by decide) (by decide)

/-- C2 counterexample: the raw string `"[-1,]"` tokenizes to
`["-1", ""]`, which is neither empty nor a single empty token, yet the
parse result is the no-op marker — refuting the claim's "exactly when the
token sequence is empty or consists solely of one empty-string token". -/
theorem claim_C2_counterexample :
    parse_raw "[-1,]" = some ParsedCodes.noop
  ∧ splitTokens "[-1,]" = ["-1", ""]
  ∧ splitTokens "[-1,]" ≠ [] ∧ splitTokens "[-1,]" ≠ [""] := by
  refine ⟨by decide, by decide, by decide, by decide⟩

/-- C2 (amended).  Parsing strips the enclosing brackets and splits on
commas; the result is the no-op marker exactly when SOME token is the
empty string (in particular for `"[]"`, whose token sequence is the single
empty token); otherwise if every token parses as an integer the result is
the integer code list; `parse "[-1,0]"` yields the integers `-1, 0`,
`parse "[]"` yields no-op, and `parse "[-1,X]"` yields the mixed list
`-1.0, "X"`. -/
theorem claim_C2_amended :
    (∀ s : String,
      parse_raw s = some ParsedCodes.noop ↔ "" ∈ splitTokens s)
  ∧ (∀ (s : String) (ns : List Int), "" ∉ splitTokens s →
      (splitTokens s).mapM pyParseInt = some ns →
      parse_raw s = some (ParsedCodes.codes (ns.map Cell.int)))
  ∧ parse_raw "[-1,0]"
      = some (ParsedCodes.codes [Cell.int (-1), Cell.int 0])
  ∧ parse_raw "[]" = some ParsedCodes.noop
  ∧ parse_raw "[-1,X]"
      = some (ParsedCodes.codes [Cell.dec (-1), Cell.str "X"]) := by
  refine ⟨?_, ?_, by decide, by decide, by decide⟩
  · intro s
    exact parse_missing_codes_noop_iff (splitTokens s)
  · intro s ns h hm
    exact parse_missing_codes_int (splitTokens s) ns h hm

/-- C2 witness: the integer branch at the concrete input `"[-1,0]"`. -/
theorem claim_C2_amended_witness :
    parse_raw "[-1,0]"
      = some (ParsedCodes.codes (([-1, 0] : List Int).map Cell.int)) :=
  claim_C2_amended.2.1 "[-1,0]" [-1, 0] (by decide) (by decide)

/-- C3 counterexample: on the token list `["Y"]`, integer parsing fails
and `"Y"` fails decimal parsing too, yet the parse raises an uncaught
`ValueError` (modelled `none`) instead of retaining `"Y"` as a literal
string sentinel — refuting "no token value causes the parse to raise an
error". -/
theorem claim_C3_counterexample :
    parse_missing_codes ["Y"] = none
  ∧ pyParseInt "Y" = none
  ∧ pyParseFloat "Y" = none
  ∧ parse_missing_codes ["Y"] ≠ some (ParsedCodes.codes [Cell.str "Y"]) := by
  refine ⟨by decide, by decide, by decide, by decide⟩

/-- C3 (amended).  For every token list without empty tokens in which
integer parsing fails for some token: each token containing the character
`X` is retained as a literal string sentinel, each other token is parsed
as a decimal number if parseable, and the parse raises an error exactly
when some token without an `X` fails decimal parsing (so only the
`X`-family of non-numeric sentinels is tolerated). -/
theorem claim_C3_amended (l : List String) (h1 : "" ∉ l)
    (h2 : l.mapM pyParseInt = none) :
    (∀ cs, parse_missing_codes l = some (ParsedCodes.codes cs) →
      List.Forall₂ tokenRel l cs)
  ∧ (parse_missing_codes l = none ↔
      ∃ e ∈ l, ('X' : Char) ∉ e.toList ∧ pyParseFloat e = none) := by
  rw [parse_missing_codes_fallback l h1 h2]
  constructor
  · intro cs hcs
    rw [Option.map_eq_some'] at hcs
    obtain ⟨a, ha, hac⟩ := hcs
    cases hac
    have hf := mapM_option_some _ l cs ha
    refine hf.imp ?_
    intro e c hec
    by_cases hx : ('X' : Char) ∈ e.toList
    · rw [if_pos hx] at hec
      cases hec
      exact Or.inl ⟨hx, rfl⟩
    · rw [if_neg hx] at hec
      rw [Option.map_eq_some'] at hec
      obtain ⟨q, hq, hqc⟩ := hec
      exact Or.inr ⟨hx, q, hq, hqc.symm⟩
  · rw [Option.map_eq_none']
    rw [mapM_option_none]
    constructor
    · rintro ⟨e, he, hge⟩
      by_cases hx : ('X' : Char) ∈ e.toList
      · rw [if_pos hx] at hge
        cases hge
      · rw [if_neg hx] at hge
        rw [Option.map_eq_none'] at hge
        exact ⟨e, he, hx, hge⟩
    · rintro ⟨e, he, hx, hf⟩
      refine ⟨e, he, ?_⟩
      rw [if_neg hx, hf]
      rfl

/-- C3 witness: the fallback branch at the concrete token list
`["-1", "X"]` — no error, `-1` parsed as a decimal, `X` kept as a
string. -/
theorem claim_C3_amended_witness :
    (∀ cs, parse_missing_codes ["-1", "X"] = some (ParsedCodes.codes cs) →
      List.Forall₂ tokenRel ["-1", "X"] cs)
  ∧ (parse_missing_codes ["-1", "X"] = none ↔
      ∃ e ∈ ["-1", "X"], ('X' : Char) ∉ e.toList ∧ pyParseFloat e = none) :=
  claim_C3_amended ["-1", "X"] (by decide) (by decide)

/-- C6.  Generation split: source code 7 maps to decade 2 and movement 1
through the fixed lookup tables; a missing source yields missing in both
derived targets (`na_action='ignore'`); and any source value absent from a
code map yields the missing marker, never 0 (`Series.map` of an absent
key). -/
theorem claim_C6 :
    mapCell decade_code_map (Cell.int 7) = Cell.int 2
  ∧ mapCell movement_code_map (Cell.int 7) = Cell.int 1
  ∧ data_mapper [Cell.int 7, Cell.missing] decade_code_map
      = [Cell.int 2, Cell.missing]
  ∧ data_mapper [Cell.int 7, Cell.missing] movement_code_map
      = [Cell.int 1, Cell.missing]
  ∧ (∀ mapping : List (Int × Cell),
      mapCell mapping Cell.missing = Cell.missing)
  ∧ (∀ (mapping : List (Int × Cell)) (n : Int), mapping.lookup n = none →
      mapCell mapping (Cell.int n) = Cell.missing) := by
  refine ⟨by decide, by decide, by decide, by decide, ?_, ?_⟩
  · intro mapping
    rfl
  · intro mapping n h
    simp [mapCell, h]

/-- C6 witness: code 16 is absent from the decade map, and the derived
target is missing. -/
theorem claim_C6_witness :
    mapCell decade_code_map (Cell.int 16) = Cell.missing :=
  claim_C6.2.2.2.2.2 decade_code_map 16 (by decide)

/-- C7.  Rural extraction precedes re-scoring: the rural map sends 0 to
missing, 1-5 to 0, 7 to 1, 8 to 2; the in-place neighborhood re-scoring
sends 0, 7, 8 to 0 and leaves 1-5 unchanged; and because the rural column
is derived from the original codes before the re-scoring overwrites them,
a row with original code 7 ends with rural type 1 and neighborhood
quality 0. -/
theorem claim_C7 :
    mapCell rural_code_map (Cell.int 0) = Cell.missing
  ∧ (∀ n : Int, 1 ≤ n → n ≤ 5 →
      mapCell rural_code_map (Cell.int n) = Cell.int 0)
  ∧ mapCell rural_code_map (Cell.int 7) = Cell.int 1
  ∧ mapCell rural_code_map (Cell.int 8) = Cell.int 2
  ∧ (∀ n : Int, n = 0 ∨ n = 7 ∨ n = 8 →
      mapCell neighborhood_code_map (Cell.int n) = Cell.int 0)
  ∧ (∀ n : Int, 1 ≤ n → n ≤ 5 →
      mapCell neighborhood_code_map (Cell.int n) = Cell.int n)
  ∧ remapColumn
      (addMappedCol [[(nqName, Cell.int 7)]] nqName ruralName
        rural_code_map)
      nqName neighborhood_code_map
      = [[(nqName, Cell.int 0), (ruralName, Cell.int 1)]] := by
  refine ⟨by decide, ?_, by decide, by decide, ?_, ?_, by decide⟩
  · intro n h1 h5
    have h : n = 1 ∨ n = 2 ∨ n = 3 ∨ n = 4 ∨ n = 5 := by omega
    rcases h with rfl | rfl | rfl | rfl | rfl <;> decide
  · intro n h
    rcases h with rfl | rfl | rfl <;> decide
  · intro n h1 h5
    have h : n = 1 ∨ n = 2 ∨ n = 3 ∨ n = 4 ∨ n = 5 := by omega
    rcases h with rfl | rfl | rfl | rfl | rfl <;> decide

/-- C7 witness: code 3 is not rural (rural type 0) and keeps neighborhood
quality 3. -/
theorem claim_C7_witness :
    mapCell rural_code_map (Cell.int 3) = Cell.int 0
  ∧ mapCell neighborhood_code_map (Cell.int 3) = Cell.int 3 :=
  ⟨claim_C7.2.1 3 (by decide) (by decide),
   claim_C7.2.2.2.2.2.1 3 (by decide) (by decide)⟩

/-- C9.  Idempotence of the Missing-Code Normalizer: if `fill_missing`
succeeds on a table, applying it again with the same code table returns
the same table — cells already holding the missing marker never equal any
sentinel code, so they are not further altered. -/
theorem claim_C9 (df out : Table) (m : List (String × List String))
    (h : fill_missing df m = some out) : fill_missing out m = some out := by
  unfold fill_missing at h ⊢
  cases hm : m.mapM
      (fun p => (parse_missing_codes p.2).map (fun pc => (p.1, pc))) with
  | none =>
    rw [hm] at h
    simp at h
  | some cf =>
    rw [hm, Option.map_some'] at h
    cases h
    rw [Option.map_some', applyCodeMap_idem]

/-- C9 witness: normalizing an already-normalized one-row table (the
sentinel `-1` was replaced by the missing marker) changes nothing. -/
theorem claim_C9_witness :
    fill_missing [[("a", Cell.missing), ("b", Cell.int 3)]]
        [("a", ["-1", "0"])]
      = some [[("a", Cell.missing), ("b", Cell.int 3)]] :=
  claim_C9 [[("a", Cell.int (-1)), ("b", Cell.int 3)]]
    [[("a", Cell.missing), ("b", Cell.int 3)]]
    [("a", ["-1", "0"])] (by decide)

/-- C5.  Life-stage digit split under the enhanced policy: rows with a
missing source are dropped before the integer cast; every remaining
two-digit code `c` yields wealth `⌊c / 10⌋` and stage `c % 10` (34 gives
wealth 3 stage 4, 10 gives wealth 1 stage 0); and the source column is
absent from every output row. -/
theorem claim_C5 :
    (∀ c : Int, 10 ≤ c → c ≤ 99 →
      wealthOf c = c / 10 ∧ stageOf c = c % 10)
  ∧ wealthOf 34 = 3 ∧ stageOf 34 = 4 ∧ wealthOf 10 = 1 ∧ stageOf 10 = 0
  ∧ (∀ df : Table, lifeStageStage df
      = lifeStageStage
          (df.filter (fun r => getCol r lifeStageSrc ≠ Cell.missing)))
  ∧ (∀ (df out : Table), lifeStageStage df = some out →
      ∀ r ∈ out, lookupKey lifeStageSrc r = none)
  ∧ lifeStageStage
      [[(lifeStageSrc, Cell.int 34)], [(lifeStageSrc, Cell.missing)],
       [(lifeStageSrc, Cell.int 10)]]
      = some [[(wealthName, Cell.int 3), (stageName, Cell.int 4)],
              [(wealthName, Cell.int 1), (stageName, Cell.int 0)]] := by
  refine ⟨?_, by decide, by decide, by decide, by decide, ?_, ?_, by decide⟩
  · intro c h10 _
    refine ⟨?_, rfl⟩
    obtain ⟨n, rfl⟩ := Int.eq_ofNat_of_zero_le (by omega : (0 : Int) ≤ c)
    rfl
  · intro df
    unfold lifeStageStage
    congr 1
    rw [List.filter_filter]
    apply List.filter_congr
    intro r _
    exact (Bool.and_self _).symm
  · intro df out h r hr
    unfold lifeStageStage at h
    have hf := mapM_option_some _ _ _ h
    obtain ⟨r0, _, hrel⟩ := forall₂_mem_right hf r hr
    rw [Option.map_eq_some'] at hrel
    obtain ⟨c, _, hc⟩ := hrel
    subst hc
    exact lookupKey_filter_ne lifeStageSrc _

/-- C5 witness: the digit-split formulas at the concrete two-digit
code 34. -/
theorem claim_C5_witness :
    wealthOf 34 = 34 / 10 ∧ stageOf 34 = 34 % 10 :=
  claim_C5.1 34 (by decide) (by decide)

/-- C8.  Low-missingness imputation: filling missing Birth Year cells from
the row's own Age Bin commutes with dropping rows missing any of the 19
low-missingness columns (Birth Year is not one of the 19), so the code's
drop-then-fill order computes exactly the claimed fill-then-drop
composite; the bracket-to-year lookup maps 1, 2, 3, 4 to 2002, 1979,
1963, 1937, touches only missing Birth Year entries, and leaves every
other column unchanged. -/
theorem claim_C8 :
    (∀ df : Table, (dropLowMissing df).map birthYearFill
      = dropLowMissing (df.map birthYearFill))
  ∧ (∀ r : Row, getCol r "Birth Year" = Cell.missing →
      getCol (birthYearFill r) "Birth Year"
        = mapCell age_bin_to_year (getCol r "Age Bin"))
  ∧ (∀ r : Row, getCol r "Birth Year" ≠ Cell.missing → birthYearFill r = r)
  ∧ mapCell age_bin_to_year (Cell.int 1) = Cell.int 2002
  ∧ mapCell age_bin_to_year (Cell.int 2) = Cell.int 1979
  ∧ mapCell age_bin_to_year (Cell.int 3) = Cell.int 1963
  ∧ mapCell age_bin_to_year (Cell.int 4) = Cell.int 1937 := by
  have hpres : ∀ (r : Row) (c : String), c ≠ "Birth Year" →
      getCol (birthYearFill r) c = getCol r c := by
    intro r c hc
    unfold birthYearFill
    cases hb : getCol r "Birth Year" with
    | missing => exact getCol_setCol_ne r "Birth Year" c _ hc
    | int n => rfl
    | dec q => rfl
    | str s => rfl
  have hnb : ∀ c ∈ low_missing_cols, c ≠ "Birth Year" := by decide
  refine ⟨?_, ?_, ?_, by decide, by decide, by decide, by decide⟩
  · intro df
    rw [dropLowMissing, dropLowMissing, List.filter_map]
    congr 1
    apply List.filter_congr
    intro r _
    simp only [Function.comp]
    exact (all_congr_mem low_missing_cols _ _
      (fun c hc => by rw [hpres r c (hnb c hc)])).symm
  · intro r hb
    unfold birthYearFill
    rw [hb]
    exact getCol_setCol_same r "Birth Year" _
  · intro r hb
    unfold birthYearFill
    cases hbv : getCol r "Birth Year" with
    | missing => exact absurd hbv hb
    | int n => rfl
    | dec q => rfl
    | str s => rfl

/-- C8 witness: a row with missing Birth Year and Age Bin 1 gets its Birth
Year filled from its own bracket value. -/
theorem claim_C8_witness :
    getCol (birthYearFill
        [("Age Bin", Cell.int 1), ("Birth Year", Cell.missing)])
      "Birth Year"
    = mapCell age_bin_to_year
        (getCol [("Age Bin", Cell.int 1), ("Birth Year", Cell.missing)]
          "Age Bin") :=
  claim_C8.2.1 [("Age Bin", Cell.int 1), ("Birth Year", Cell.missing)]
    (by decide)

/-- C10.  Frame effect of `enhanced_clean`: the caller's `df` is never
mutated (the normalizer works on a deep copy and every later in-place
operation acts on that copy), while the caller's `feature_summary` is
mutated in place — each raw bracketed `missing_or_unknown` string is
replaced by its comma-split token list before the copy is taken. -/
theorem claim_C10 (df : Table) (fs : List (String × String)) (bp : Int)
    (new_names : List (String × String))
    (medians : List (String × Cell)) :
    (enhanced_clean df fs bp new_names medians).df_final = df
  ∧ (enhanced_clean df fs bp new_names medians).feature_summary_final
      = tokenize_summary fs
  ∧ (∀ (a s : String), (a, s) ∈ fs →
      (a, splitTokens s) ∈
        (enhanced_clean df fs bp new_names medians).feature_summary_final)
    := by
  refine ⟨rfl, rfl, ?_⟩
  intro a s h
  show (a, splitTokens s) ∈ tokenize_summary fs
  unfold tokenize_summary
  exact List.mem_map.mpr ⟨(a, s), h, rfl⟩

/-- C10 witness: a concrete one-entry feature summary ends up tokenized in
the final state of the argument. -/
theorem claim_C10_witness :
    ("attr", splitTokens "[-1,0]") ∈
      (enhanced_clean [] [("attr", "[-1,0]")] 0 [] []).feature_summary_final
    :=
  (claim_C10 [] [("attr", "[-1,0]")] 0 [] []).2.2 "attr" "[-1,0]"
    (by decide)

theorem dummyVec_sum (col : List Cell) (c : Cell) :
    (dummyVec (observedLevels col) c).sum
      = (if c ∈ (observedLevels col).drop 1 then 1 else 0)
        + (if c = Cell.missing then 1 else 0) := by
  rw [dummyVec, List.sum_append]
  rw [sum_indicator_nodup c _
    (List.Nodup.sublist (List.drop_sublist 1 _) (nodup_observedLevels col))]
  simp

/-- C4.  One-hot completeness for an encoded nominal column with at least
one observed non-missing value: with `k` observed distinct non-missing
values the group has exactly `k` dummy columns named `{column}__{value}`
(the `k - 1` kept levels plus the always-materialized `{column}__nan`
indicator), every cell's dummy vector sums to at most 1, and the all-zero
vector occurs exactly for the dropped first reference level and never for
a missing value. -/
theorem claim_C4 (name : String) (col : List Cell)
    (h : observedLevels col ≠ []) :
    (dummyColNames name col).length = (observedLevels col).length
  ∧ (name ++ "__nan") ∈ dummyColNames name col
  ∧ (∀ c : Cell, (dummiesForCell name (observedLevels col) c).map Prod.fst
      = dummyColNames name col)
  ∧ (∀ c ∈ col, (dummyVec (observedLevels col) c).sum ≤ 1)
  ∧ (∀ c ∈ col, ((dummyVec (observedLevels col) c).sum = 0 ↔
      c = (observedLevels col).getD 0 Cell.missing))
  ∧ (∀ c ∈ col, c = Cell.missing →
      (dummyVec (observedLevels col) c).sum ≠ 0) := by
  obtain ⟨k0, rest, hks⟩ : ∃ k0 rest, observedLevels col = k0 :: rest := by
    cases hk : observedLevels col with
    | nil => exact absurd hk h
    | cons a t => exact ⟨a, t, rfl⟩
  have hnm : Cell.missing ∉ observedLevels col :=
    missing_not_mem_observedLevels col
  have hk0 : k0 ≠ Cell.missing := by
    intro he
    exact hnm (by rw [hks, he]; simp)
  have hmdrop : Cell.missing ∉ (observedLevels col).tail := by
    intro hmem
    exact hnm ((List.tail_sublist _).subset hmem)
  have hk0rest : k0 ∉ rest := by
    have := nodup_observedLevels col
    rw [hks] at this
    exact (List.nodup_cons.mp this).1
  refine ⟨?_, ?_, ?_, ?_, ?_, ?_⟩
  · rw [dummyColNames, List.length_append, List.length_map,
      List.length_drop, hks]
    simp
  · rw [dummyColNames]
    simp
  · intro c
    rw [dummiesForCell, dummyColNames, List.map_append, List.map_map]
    rfl
  · intro c _
    rw [dummyVec_sum col c]
    by_cases hm : c = Cell.missing
    · subst hm
      simp [List.drop_one, hmdrop]
    · by_cases hd : c ∈ (observedLevels col).tail <;>
        simp [List.drop_one, hm, hd]
  · intro c hcol
    rw [dummyVec_sum col c, hks]
    simp only [List.drop_one, List.tail_cons]
    have hgd : (k0 :: rest).getD 0 Cell.missing = k0 := rfl
    rw [hgd]
    by_cases hm : c = Cell.missing
    · subst hm
      have hmr : Cell.missing ∉ rest := by
        rw [hks] at hnm
        intro hr
        exact hnm (by simp [hr])
      constructor
      · intro h0
        simp [hmr] at h0
      · intro he
        exact absurd he.symm hk0
    · have hcks : c ∈ observedLevels col :=
        (mem_observedLevels c col).mpr ⟨hcol, hm⟩
      rw [hks] at hcks
      rw [if_neg hm]
      rcases List.mem_cons.mp hcks with rfl | hcr
      · rw [if_neg hk0rest]
        simp
      · have hck0 : c ≠ k0 := fun he => hk0rest (he ▸ hcr)
        rw [if_pos hcr]
        simp [hck0]
  · intro c hcol hm
    subst hm
    rw [dummyVec_sum col Cell.missing]
    simp [List.drop_one, hmdrop]

/-- C4 witness: a column with two observed string levels and a missing
cell has exactly two dummy columns (one kept level plus the nan
indicator). -/
theorem claim_C4_witness :
    (dummyColNames "Shopper Type"
        [Cell.str "A", Cell.str "B", Cell.missing]).length
      = (observedLevels [Cell.str "A", Cell.str "B", Cell.missing]).length
    :=
  (claim_C4 "Shopper Type" [Cell.str "A", Cell.str "B", Cell.missing]
    (by decide)).1
